import Mathlib

/-!
Verification of the wraith vulnerability ingestion-and-classification
pipeline against its natural-language specification.

The Go source is shallowly embedded: pure functions become Lean
functions, the I/O-driven loop (`ProcessVulnerabilities` /
`processBatch` / `processVulnerability`) becomes a deterministic
interpreter over an environment `Env` of oracles (detail fetch, LLM
call, store writes) that records an event trace.  Machine strings are
Lean `String`s; Go's byte-lexicographic string comparison is `strLe`
(codepoint-lexicographic, which coincides with UTF-8 byte order).
-/

namespace Wraith

deriving instance DecidableEq for Except

/-- Go string `<=` (byte-lexicographic over UTF-8, which is
codepoint-lexicographic), on the character lists. -/
def charListLe : List Char → List Char → Bool
  | [], _ => true
  | _ :: _, [] => false
  | a :: as, b :: bs =>
    if a.val < b.val then true
    else if b.val < a.val then false
    else charListLe as bs

/-- `a <= b` on Go strings. -/
def strLe (a b : String) : Bool := charListLe a.data b.data

/-- From downloader.go: the parsed index row
`{Modified, Ecosystem, VulnID, FullPath}`. -/
structure CSVRecord where
  Modified : String
  Ecosystem : String
  VulnID : String
  FullPath : String
deriving Repr, DecidableEq

/-- From downloader.go `Vulnerability` (fields that feed the classified
record and the watermark; the prompt-only fields `Summary`, `Details`,
`Aliases`, `Affected`, `References`, `Severity`, `DatabaseSpecific`
are not consumed by any verified path and are omitted). -/
structure Vulnerability where
  ID : String
  Modified : String
  Published : String
  Withdrawn : String
deriving Repr, DecidableEq

/-- From downloader.go `CacheMetadata`.  Time is modelled as `Int`
(hours), so `CachedAt + TTL` is the expiry instant. -/
structure CacheMetadata where
  URL : String
  ETag : String
  LastModified : String
  CachedAt : Int
  TTL : Int
deriving Repr, DecidableEq

/-- Go `strings.SplitN(s, "/", 2)`, on the character list: no slash
present gives `none`, otherwise the parts before and after the first
slash. -/
def splitSlash : List Char → Option (List Char × List Char)
  | [] => none
  | c :: rest =>
    if c = '/' then some ([], rest)
    else
      match splitSlash rest with
      | none => none
      | some (a, b) => some (c :: a, b)

/-- Go `strings.SplitN(fullPath, "/", 2)`: a one-element list when the
string has no `/`, otherwise the two components around the first `/`. -/
def splitN2 (s : String) : List String :=
  match splitSlash s.data with
  | none => [s]
  | some (a, b) => [String.mk a, String.mk b]

/-- The body of the `parseCSV` loop for one successfully read row: a
row with other than two fields is skipped (`continue`), a path whose
`SplitN` on `/` does not give two parts (i.e. contains no `/`) is
skipped, otherwise one `CSVRecord` is prepended to the parse of the
remaining rows. -/
def parseRowInto (row : List String) (restResult : Except Unit (List CSVRecord)) :
    Except Unit (List CSVRecord) :=
  match row with
  | [modified, fullPath] =>
    match splitN2 fullPath with
    | [eco, vulnID] =>
      restResult.map (fun recs => ⟨modified, eco, vulnID, fullPath⟩ :: recs)
    | _ => restResult
  | _ => restResult

/-- From downloader.go `parseCSV` composed with `csv.Reader.Read`'s
field-count tracking.  The input is the sequence of lexed records of
the payload (quoting and blank-line elision happen below this model).
With the reader's default `FieldsPerRecord = 0`, the first record
sets the expected field count and any later record with a different
count makes `Read` return `ErrFieldCount`, which `parseCSV` turns
into a fatal error for the whole parse.  The `Option Nat` is the
reader's expected-count state (`none` before the first record). -/
def parseCSVFrom : Option Nat → List (List String) → Except Unit (List CSVRecord)
  | _, [] => Except.ok []
  | some n, row :: rest =>
    if row.length = n then parseRowInto row (parseCSVFrom (some n) rest)
    else Except.error ()
  | none, row :: rest => parseRowInto row (parseCSVFrom (some row.length) rest)

/-- From downloader.go `parseCSV`: the reader starts with no expected
field count. -/
def parseCSV (rows : List (List String)) : Except Unit (List CSVRecord) :=
  parseCSVFrom none rows

/-- From classifier.go `Classification` (firestore-only provenance and
metric fields included; `ProcessingTimeMs` stands for the recorded
elapsed duration). -/
structure Classification where
  VulnerabilityID : String := ""
  VulnerabilityURL : String := ""
  Verifiability : String := ""
  ExploitabilityContext : String := ""
  AttackVector : String := ""
  ImpactScope : String := ""
  RemediationComplexity : String := ""
  TemporalClassification : String := ""
  Reasoning : String := ""
  ProcessedAt : String := ""
  OSVPublished : String := ""
  OSVModified : String := ""
  OSVWithdrawn : String := ""
  ProcessingTimeMs : Int := 0
  InputTokens : Int := 0
  OutputTokens : Int := 0
  TotalTokens : Int := 0
deriving Repr, DecidableEq

/-- The two error shapes produced by `validateClassification`
(`fmt.Errorf("missing required field: %s", ...)` and
`fmt.Errorf("invalid value for %s: %s (valid: %v)", ...)`). -/
inductive VErr where
  | missingField (field : String)
  | invalidValue (field value : String) (valid : List String)
deriving Repr, DecidableEq

/-- The text of the Go error, as `fmt.Errorf` formats it (`%v` on a
string slice prints the values space-separated in brackets). -/
def renderVErr : VErr → String
  | VErr.missingField f => "missing required field: " ++ f
  | VErr.invalidValue f v valid =>
      "invalid value for " ++ f ++ ": " ++ v ++ " (valid: [" ++ String.intercalate " " valid ++ "])"

/-- From classifier.go `validateClassification`: the `validValues`
vocabulary map, in declaration order. -/
def validValues : List (String × List String) :=
  [("verifiability", ["verifiable", "non-verifiable", "partially-verifiable"]),
   ("exploitability_context",
     ["direct-dependency", "transitive-dependency", "development-only", "runtime-critical"]),
   ("attack_vector",
     ["user-input-required", "network-accessible", "local-only", "configuration-dependent"]),
   ("impact_scope",
     ["data-confidentiality", "data-integrity", "system-availability", "code-execution",
      "privilege-escalation"]),
   ("remediation_complexity",
     ["simple-update", "breaking-change", "no-fix-available", "workaround-available",
      "architecture-change"]),
   ("temporal_classification",
     ["zero-day", "active-exploitation", "stable-mature", "legacy"])]

/-- `validValues[field]` (Go map lookup; absent key gives the empty
slice, which never happens for the six checked fields). -/
def vocabOf (field : String) : List String :=
  match validValues.find? (fun p => p.1 == field) with
  | some p => p.2
  | none => []

/-- From classifier.go `validateClassification`: the `fields` map of
the classification's six enumerated values.  Go iterates this map in
unspecified order; the embedding fixes declaration order (which error
is reported when several fields are bad is the only order-dependent
observable). -/
def fieldsOf (c : Classification) : List (String × String) :=
  [("verifiability", c.Verifiability),
   ("exploitability_context", c.ExploitabilityContext),
   ("attack_vector", c.AttackVector),
   ("impact_scope", c.ImpactScope),
   ("remediation_complexity", c.RemediationComplexity),
   ("temporal_classification", c.TemporalClassification)]

/-- The per-field loop body of `validateClassification`: empty value
fails as a missing field, a value outside `validValues[field]` fails
with the field, the value and the allowed set. -/
def checkFields : List (String × String) → Except VErr Unit
  | [] => Except.ok ()
  | (field, value) :: rest =>
    if value == "" then Except.error (VErr.missingField field)
    else if (vocabOf field).contains value then checkFields rest
    else Except.error (VErr.invalidValue field value (vocabOf field))

/-- From classifier.go `validateClassification`. -/
def validateClassification (c : Classification) : Except VErr Unit :=
  checkFields (fieldsOf c)

/-- From llm.go `StructuredResponse`: the result of
`LLMClient.ChatStructured` decoded into a `Classification`. -/
structure StructuredResponse where
  Result : Classification
  InputTokens : Int
  OutputTokens : Int
  TotalTokens : Int
deriving Repr, DecidableEq

/-- The failure modes of classifier.go `Classify`: the LLM call fails
(transport or decode), or the decoded output fails validation. -/
inductive ClassifyErr where
  | modelErr
  | validationErr (e : VErr)
deriving Repr, DecidableEq

/-- The pipeline's external collaborators, as oracles: the per-record
detail fetch (`none` = transport/HTTP/decode failure), the structured
LLM call (`none` = ModelError), the two Firestore writes
(`false` = WriteError), the configured ecosystem filter and API URL,
and the wall-clock values the classifier stamps. -/
structure Env where
  fetch : CSVRecord → Option Vulnerability
  chatStructured : Vulnerability → Option StructuredResponse
  storeOk : String → Classification → Bool
  markOk : String → Bool
  ecosystem : String
  apiURL : String
  processedAt : String
  elapsedMs : Int

/-- From classifier.go `Classify`: call the structured LLM contract,
validate the decoded classification, then stamp provenance, the
record's OSV timestamps, and usage metrics. -/
def Classify (env : Env) (vuln : Vulnerability) : Except ClassifyErr Classification :=
  match env.chatStructured vuln with
  | none => Except.error ClassifyErr.modelErr
  | some resp =>
    match validateClassification resp.Result with
    | Except.error e => Except.error (ClassifyErr.validationErr e)
    | Except.ok _ =>
      Except.ok { resp.Result with
        VulnerabilityID := vuln.ID,
        VulnerabilityURL := env.apiURL ++ "/vulns/" ++ vuln.ID,
        ProcessedAt := env.processedAt,
        OSVPublished := vuln.Published,
        OSVModified := vuln.Modified,
        OSVWithdrawn := vuln.Withdrawn,
        ProcessingTimeMs := env.elapsedMs,
        InputTokens := resp.InputTokens,
        OutputTokens := resp.OutputTokens,
        TotalTokens := resp.TotalTokens }

/-- Observable events of a run: each store / watermark write call with
its outcome, and the per-record failures that are only logged. -/
inductive Ev where
  | fetchFail (vulnID : String)
  | classifyFail (vulnID : String)
  | storeOk (docID : String) (c : Classification)
  | storeFail (docID : String) (c : Classification)
  | markOk (ts : String)
  | markFail (ts : String)
deriving Repr, DecidableEq

/-- From main.go `processVulnerability`: classify, store, then advance
the watermark; any failure is returned to the caller (the batch
driver), the watermark write happening only after the store write
succeeded.  Returns the emitted events and whether the call returned
`nil`. -/
def processVulnerability (env : Env) (vuln : Vulnerability) : List Ev × Bool :=
  match Classify env vuln with
  | Except.error _ => ([Ev.classifyFail vuln.ID], false)
  | Except.ok c =>
    if env.storeOk vuln.ID c then
      if env.markOk vuln.Modified then
        ([Ev.storeOk vuln.ID c, Ev.markOk vuln.Modified], true)
      else
        ([Ev.storeOk vuln.ID c, Ev.markFail vuln.Modified], false)
    else ([Ev.storeFail vuln.ID c], false)

/-- The body of the `processBatch` loop for one record: a fetch
failure is logged and skipped (`continue`), otherwise the fetched
detail's `Modified` is overwritten with the CSV row's timestamp and
the per-record function is invoked. -/
def processOneRecord (env : Env) (r : CSVRecord) : List Ev × Bool :=
  match env.fetch r with
  | none => ([Ev.fetchFail r.VulnID], true)
  | some v => processVulnerability env { v with Modified := r.Modified }

/-- From downloader.go `processBatch`: records in order, a fetch
failure continues with the next record, a `processFunc` failure aborts
the batch (and, upward, the run). -/
def processBatch (env : Env) : List CSVRecord → List Ev × Bool
  | [] => ([], true)
  | r :: rest =>
    let step := processOneRecord env r
    if step.2 then
      let rest' := processBatch env rest
      (step.1 ++ rest'.1, rest'.2)
    else (step.1, false)

/-- From downloader.go `ProcessVulnerabilities`' main loop: skip
already-processed timestamps and filtered-out ecosystems, accumulate a
batch, flush when it reaches `batchSize`, and flush the remainder at
the end.  (The cooperative `ctx.Done()` check is not modelled: no
claim concerns cancellation.) -/
def processLoop (env : Env) (lastTimestamp : String) (batchSize : Nat)
    (batch : List CSVRecord) : List CSVRecord → List Ev × Bool
  | [] => if batch.isEmpty then ([], true) else processBatch env batch
  | r :: rest =>
    if lastTimestamp != "" && strLe r.Modified lastTimestamp then
      processLoop env lastTimestamp batchSize batch rest
    else if env.ecosystem != "" && r.Ecosystem != env.ecosystem then
      processLoop env lastTimestamp batchSize batch rest
    else
      let batch' := batch ++ [r]
      if batchSize ≤ batch'.length then
        let flush := processBatch env batch'
        if flush.2 then
          let rest' := processLoop env lastTimestamp batchSize [] rest
          (flush.1 ++ rest'.1, rest'.2)
        else (flush.1, false)
      else
        processLoop env lastTimestamp batchSize batch' rest

/-- From downloader.go `ProcessVulnerabilities`, applied to the parsed
CSV records (`downloadCSV` is modelled separately below). -/
def ProcessVulnerabilities (env : Env) (lastTimestamp : String) (batchSize : Nat)
    (records : List CSVRecord) : List Ev × Bool :=
  processLoop env lastTimestamp batchSize [] records

/-- The survivor condition of the loop: a record is batched (not
skipped) iff the watermark does not cover it and the ecosystem filter
does not exclude it. -/
def keep (ecosystem lastTimestamp : String) (r : CSVRecord) : Bool :=
  !(lastTimestamp != "" && strLe r.Modified lastTimestamp) &&
  !(ecosystem != "" && r.Ecosystem != ecosystem)

/-- Number of `StoreClassification` calls recorded in a trace. -/
def isStoreEv : Ev → Bool
  | Ev.storeOk _ _ => true
  | Ev.storeFail _ _ => true
  | _ => false

def storeCalls (t : List Ev) : Nat := (t.filter isStoreEv).length

/-- The watermark value durably stored at the end of a trace: the last
successful `UpdateLastProcessedTimestamp` call. -/
def finalMark : List Ev → Option String
  | [] => none
  | Ev.markOk ts :: rest => some ((finalMark rest).getD ts)
  | _ :: rest => finalMark rest

/-- Checks that every watermark write call (successful or not) in a
trace immediately follows a successful classification store. -/
def marksAfterStores : List Ev → Bool
  | [] => true
  | Ev.storeOk _ _ :: Ev.markOk _ :: rest => marksAfterStores rest
  | Ev.storeOk _ _ :: Ev.markFail _ :: rest => marksAfterStores rest
  | Ev.markOk _ :: _ => false
  | Ev.markFail _ :: _ => false
  | _ :: rest => marksAfterStores rest

def isMarkFail : Ev → Bool
  | Ev.markFail _ => true
  | _ => false

/-- The cache directory as `loadFromCache` observes it: existence of
the two artifacts, the metadata read (`none` = read error) and its
JSON parse (`none` = unmarshal error), and the payload open
(`none` = open error) yielding the payload's lexed csv records. -/
structure CacheFS where
  cacheFileExists : Bool
  metaFileExists : Bool
  metaRead : Option (Option CacheMetadata)
  cacheOpen : Option (List (List String))

/-- From downloader.go `loadFromCache`: both artifacts must exist, the
metadata must read and parse, the entry must not be expired (checked
only when the configured TTL is positive, via `time.Now().After`,
i.e. invalid only strictly after `CachedAt + TTL`), and the payload
must open and parse; any failure yields `(nil, false)`. -/
def loadFromCache (fs : CacheFS) (cacheTTL now : Int) : Option (List CSVRecord) :=
  if !fs.cacheFileExists then none
  else if !fs.metaFileExists then none
  else
    match fs.metaRead with
    | none => none
    | some none => none
    | some (some meta) =>
      if cacheTTL > 0 && meta.CachedAt + cacheTTL < now then none
      else
        match fs.cacheOpen with
        | none => none
        | some rows =>
          match parseCSV rows with
          | Except.error _ => none
          | Except.ok records => some records

/-- The network and filesystem effects of `downloadAndCache`:
`download` collapses request creation, the HTTP round trip, the status
check, temp-file creation and the body copy/seek (`.error` = any of
them failed) into the lexed csv records read back from the temp file;
`renameOk` and `metaWriteOk` are the outcomes of the two cache-write
steps in `saveToCache`. -/
structure NetEnv where
  mkdirOk : Bool
  download : Except Unit (List (List String))
  renameOk : Bool
  metaWriteOk : Bool

/-- From downloader.go `saveToCache`: rename the temp file into place,
then write the metadata sidecar; the first failure is returned. -/
def saveToCache (net : NetEnv) : Except Unit Unit :=
  if !net.renameOk then Except.error ()
  else if !net.metaWriteOk then Except.error ()
  else Except.ok ()

/-- From downloader.go `downloadAndCache`: ensure the cache directory,
download and parse; only after a successful parse call `saveToCache`,
whose failure is merely logged as a warning.  The `Bool` records
whether the cache save succeeded (observable only in the log). -/
def downloadAndCache (net : NetEnv) : Except Unit (List CSVRecord) × Bool :=
  if !net.mkdirOk then (Except.error (), false)
  else
    match net.download with
    | Except.error e => (Except.error e, false)
    | Except.ok rows =>
      match parseCSV rows with
      | Except.error e => (Except.error e, false)
      | Except.ok records =>
        match saveToCache net with
        | Except.error _ => (Except.ok records, false)
        | Except.ok _ => (Except.ok records, true)

/-- From downloader.go `downloadCSV`: serve from cache when
`loadFromCache` reports a valid entry, otherwise fall through to
`downloadAndCache`.  The `Bool` is true iff the records were served
from cache (no network call). -/
def downloadCSV (fs : CacheFS) (net : NetEnv) (cacheTTL now : Int) :
    Except Unit (List CSVRecord) × Bool :=
  match loadFromCache fs cacheTTL now with
  | some records => (Except.ok records, true)
  | none => ((downloadAndCache net).1, false)

/-- Modelled from the spec (§3 CacheMetadata invariant), for
comparison with `loadFromCache`: "a cache entry is valid iff both the
raw payload file and its metadata file exist, parse, and
`now < cachedAt + ttlHours` (when `ttlHours > 0`; `0` means never
expires)". -/
def cacheValidSpec (fs : CacheFS) (cacheTTL now : Int) : Bool :=
  fs.cacheFileExists && fs.metaFileExists &&
  (match fs.metaRead with
   | some (some meta) =>
     (!decide (cacheTTL > 0) || decide (now < meta.CachedAt + cacheTTL)) &&
     (match fs.cacheOpen with
      | some rows =>
        (match parseCSV rows with
         | Except.ok _ => true
         | Except.error _ => false)
      | none => false)
   | _ => false)

/-! ## Structural lemmas about the batching loop -/

/-- Sequential processing splits over concatenation, with the abort
of a failing prefix cutting the suffix off. -/
theorem processBatch_append (env : Env) (xs ys : List CSVRecord) :
    processBatch env (xs ++ ys) =
      (if (processBatch env xs).2 then
        ((processBatch env xs).1 ++ (processBatch env ys).1, (processBatch env ys).2)
      else processBatch env xs) := by
  induction xs with
  | nil => simp [processBatch]
  | cons r rest ih =>
    simp only [List.cons_append, processBatch]
    by_cases h : (processOneRecord env r).2
    · by_cases h2 : (processBatch env rest).2 <;>
        simp [h, h2, ih, List.append_assoc]
    · simp [h]

/-- The batching loop of `ProcessVulnerabilities` is sequential
processing of exactly the records that survive the watermark and
ecosystem filters, whatever the batch size. -/
theorem processLoop_eq (env : Env) (lt : String) (bs : Nat) :
    ∀ (rest batch : List CSVRecord),
      processLoop env lt bs batch rest =
        processBatch env (batch ++ rest.filter (keep env.ecosystem lt)) := by
  intro rest
  induction rest with
  | nil =>
    intro batch
    by_cases h : batch.isEmpty
    · simp [processLoop, h, List.isEmpty_iff.mp h, processBatch]
    · simp [processLoop, h]
  | cons r rest ih =>
    intro batch
    by_cases h1 : (lt != "" && strLe r.Modified lt)
    · have hk : keep env.ecosystem lt r = false := by simp [keep, h1]
      simp [processLoop, h1, hk, ih]
    · by_cases h2 : (env.ecosystem != "" && r.Ecosystem != env.ecosystem)
      · have hk : keep env.ecosystem lt r = false := by simp [keep, h2]
        simp [processLoop, h1, h2, hk, ih]
      · have hk : keep env.ecosystem lt r = true := by
          simp [keep, h1, h2]
        by_cases h3 : bs ≤ (batch ++ [r]).length
        · have hfc : List.filter (keep env.ecosystem lt) (r :: rest) =
              r :: List.filter (keep env.ecosystem lt) rest := by
            simp [hk]
          have hx : batch ++ r :: rest.filter (keep env.ecosystem lt) =
              (batch ++ [r]) ++ rest.filter (keep env.ecosystem lt) := by
            simp
          rw [hfc, hx, processBatch_append env (batch ++ [r])]
          simp only [processLoop]
          rw [if_neg h1, if_neg h2, if_pos h3]
          by_cases h4 : (processBatch env (batch ++ [r])).2
          · rw [if_pos h4, if_pos h4]
            simp [ih]
          · rw [if_neg h4, if_neg h4]
            have h4' : (processBatch env (batch ++ [r])).2 = false :=
              Bool.not_eq_true _ |>.mp h4
            exact Prod.ext rfl h4'.symm
        · have h3' : ¬ bs ≤ batch.length + 1 := by simpa using h3
          simp [processLoop, h1, h2, h3', hk, ih]

/-- Processing one batch record produces exactly one of five event
shapes; in every shape that reaches the store or the watermark, the
classification's `OSVModified` and the watermark argument are the CSV
row's `Modified` (because `processBatch` overwrites the fetched
detail's `Modified` before calling `processFunc`). -/
theorem Classify_ok (env : Env) (vuln : Vulnerability) (c : Classification)
    (h : Classify env vuln = Except.ok c) :
    c.OSVModified = vuln.Modified ∧ c.VulnerabilityID = vuln.ID ∧
    c.OSVPublished = vuln.Published ∧ c.OSVWithdrawn = vuln.Withdrawn := by
  unfold Classify at h
  split at h
  · cases h
  · split at h
    · cases h
    · cases h; exact ⟨rfl, rfl, rfl, rfl⟩

theorem processOneRecord_cases (env : Env) (r : CSVRecord) :
    (∃ id, processOneRecord env r = ([Ev.fetchFail id], true)) ∨
    (∃ id, processOneRecord env r = ([Ev.classifyFail id], false)) ∨
    (∃ id c, c.OSVModified = r.Modified ∧
      processOneRecord env r = ([Ev.storeFail id c], false)) ∨
    (∃ id c, c.OSVModified = r.Modified ∧
      processOneRecord env r = ([Ev.storeOk id c, Ev.markFail r.Modified], false)) ∨
    (∃ id c, c.OSVModified = r.Modified ∧
      processOneRecord env r = ([Ev.storeOk id c, Ev.markOk r.Modified], true)) := by
  cases hf : env.fetch r with
  | none => exact Or.inl ⟨r.VulnID, by simp [processOneRecord, hf]⟩
  | some v =>
    cases hcl : Classify env { v with Modified := r.Modified } with
    | error e =>
      refine Or.inr (Or.inl ⟨v.ID, ?_⟩)
      simp [processOneRecord, hf, processVulnerability, hcl]
    | ok c =>
      have hmod : c.OSVModified = r.Modified := (Classify_ok env _ c hcl).1
      cases hs : env.storeOk v.ID c with
      | false =>
        refine Or.inr (Or.inr (Or.inl ⟨v.ID, c, hmod, ?_⟩))
        simp [processOneRecord, hf, processVulnerability, hcl, hs]
      | true =>
        cases hm : env.markOk r.Modified with
        | false =>
          refine Or.inr (Or.inr (Or.inr (Or.inl ⟨v.ID, c, hmod, ?_⟩)))
          simp [processOneRecord, hf, processVulnerability, hcl, hs, hm]
        | true =>
          refine Or.inr (Or.inr (Or.inr (Or.inr ⟨v.ID, c, hmod, ?_⟩)))
          simp [processOneRecord, hf, processVulnerability, hcl, hs, hm]

/-- Prepending one record's events preserves the
store-before-watermark checker. -/
theorem marksAfterStores_chunk (env : Env) (r : CSVRecord) (t : List Ev) :
    marksAfterStores ((processOneRecord env r).1 ++ t) = marksAfterStores t := by
  rcases processOneRecord_cases env r with
    ⟨id, h⟩ | ⟨id, h⟩ | ⟨id, c, _, h⟩ | ⟨id, c, _, h⟩ | ⟨id, c, _, h⟩ <;>
      simp [h, marksAfterStores]

/-- In every batch trace, each watermark write call immediately
follows a successful classification store. -/
theorem processBatch_marksAfterStores (env : Env) (l : List CSVRecord) :
    marksAfterStores (processBatch env l).1 = true := by
  induction l with
  | nil => rfl
  | cons r rest ih =>
    simp only [processBatch]
    by_cases h : (processOneRecord env r).2
    · simpa [h, marksAfterStores_chunk] using ih
    · have := marksAfterStores_chunk env r []
      simpa [h, List.append_nil] using this

/-- A failed watermark write aborts the batch (the run returns the
error). -/
theorem processBatch_markFail_aborts (env : Env) (l : List CSVRecord) :
    (processBatch env l).1.any isMarkFail = true → (processBatch env l).2 = false := by
  induction l with
  | nil => intro h; simp [processBatch, List.any] at h
  | cons r rest ih =>
    intro h
    simp only [processBatch] at h ⊢
    by_cases hs : (processOneRecord env r).2
    · rw [if_pos hs] at h ⊢
      simp only [List.any_append, Bool.or_eq_true] at h
      show (processBatch env rest).2 = false
      rcases h with h | h
      · exfalso
        rcases processOneRecord_cases env r with
          ⟨id, he⟩ | ⟨id, he⟩ | ⟨id, c, _, he⟩ | ⟨id, c, _, he⟩ | ⟨id, c, _, he⟩ <;>
          rw [he] at h hs <;> simp [isMarkFail] at h hs
      · exact ih h
    · rw [if_neg hs]

/-- Every store or watermark event of a batch trace carries the
`Modified` timestamp of one of the batch's CSV rows (never the
fetched detail's own `modified`). -/
def evFeedStamped (batch : List CSVRecord) : Ev → Prop
  | Ev.storeOk _ c => ∃ r ∈ batch, c.OSVModified = r.Modified
  | Ev.storeFail _ c => ∃ r ∈ batch, c.OSVModified = r.Modified
  | Ev.markOk ts => ∃ r ∈ batch, ts = r.Modified
  | Ev.markFail ts => ∃ r ∈ batch, ts = r.Modified
  | _ => True

theorem evFeedStamped_mono {batch batch' : List CSVRecord}
    (h : ∀ x ∈ batch, x ∈ batch') (ev : Ev) :
    evFeedStamped batch ev → evFeedStamped batch' ev := by
  cases ev <;> simp [evFeedStamped] <;> exact fun r hr hm => ⟨r, h r hr, hm⟩

theorem processBatch_feedStamped (env : Env) (batch : List CSVRecord) :
    ∀ ev ∈ (processBatch env batch).1, evFeedStamped batch ev := by
  induction batch with
  | nil => intro ev h; simp [processBatch] at h
  | cons r rest ih =>
    intro ev hev
    have step : ∀ e ∈ (processOneRecord env r).1, evFeedStamped (r :: rest) e := by
      intro e he
      rcases processOneRecord_cases env r with
        ⟨id, h⟩ | ⟨id, h⟩ | ⟨id, c, hm, h⟩ | ⟨id, c, hm, h⟩ | ⟨id, c, hm, h⟩ <;>
        rw [h] at he <;> simp at he
      · subst he; trivial
      · subst he; trivial
      · subst he; exact ⟨r, List.mem_cons_self r rest, hm⟩
      · rcases he with he | he <;> subst he
        · exact ⟨r, List.mem_cons_self r rest, hm⟩
        · exact ⟨r, List.mem_cons_self r rest, rfl⟩
      · rcases he with he | he <;> subst he
        · exact ⟨r, List.mem_cons_self r rest, hm⟩
        · exact ⟨r, List.mem_cons_self r rest, rfl⟩
    simp only [processBatch] at hev
    by_cases h : (processOneRecord env r).2
    · rw [if_pos h] at hev
      rcases List.mem_append.mp hev with hin | hin
      · exact step ev hin
      · exact evFeedStamped_mono (fun x hx => List.mem_cons_of_mem r hx) ev (ih ev hin)
    · rw [if_neg h] at hev
      exact step ev hev

/-- When the record's fetch, classification, store and watermark write
all succeed, processing it emits exactly one store and one watermark
event, the latter with the CSV row's timestamp. -/
theorem processVulnerability_allOk (env : Env) (v : Vulnerability)
    (hc : ∃ resp, env.chatStructured v = some resp ∧
      validateClassification resp.Result = Except.ok ())
    (hs : ∀ id c, env.storeOk id c = true)
    (hm : ∀ ts, env.markOk ts = true) :
    ∃ c, processVulnerability env v = ([Ev.storeOk v.ID c, Ev.markOk v.Modified], true) := by
  obtain ⟨resp, hresp, hval⟩ := hc
  have hcl : ∃ c, Classify env v = Except.ok c := by
    simp only [Classify, hresp, hval]
    exact ⟨_, rfl⟩
  obtain ⟨c, hcl⟩ := hcl
  exact ⟨c, by simp [processVulnerability, hcl, hs, hm]⟩

theorem processOneRecord_allOk (env : Env) (r : CSVRecord)
    (hf : ∃ v, env.fetch r = some v)
    (hc : ∀ v, ∃ resp, env.chatStructured v = some resp ∧
      validateClassification resp.Result = Except.ok ())
    (hs : ∀ id c, env.storeOk id c = true)
    (hm : ∀ ts, env.markOk ts = true) :
    ∃ id c, processOneRecord env r = ([Ev.storeOk id c, Ev.markOk r.Modified], true) := by
  obtain ⟨v, hv⟩ := hf
  obtain ⟨c, hpv⟩ :=
    processVulnerability_allOk env { v with Modified := r.Modified } (hc _) hs hm
  exact ⟨v.ID, c, by simp [processOneRecord, hv, hpv]⟩

/-- The `Modified` timestamp of the last record of a list (`none` for
the empty list). -/
def lastModified : List CSVRecord → Option String
  | [] => none
  | r :: rest => some ((lastModified rest).getD r.Modified)

/-- When every fetch, classification, store and watermark write
succeeds, a batch of `M` records issues exactly `M` store calls and
leaves the watermark at the last record's `Modified`. -/
theorem processBatch_allOk (env : Env)
    (hf : ∀ r, ∃ v, env.fetch r = some v)
    (hc : ∀ v, ∃ resp, env.chatStructured v = some resp ∧
      validateClassification resp.Result = Except.ok ())
    (hs : ∀ id c, env.storeOk id c = true)
    (hm : ∀ ts, env.markOk ts = true)
    (l : List CSVRecord) :
    (processBatch env l).2 = true ∧
    storeCalls (processBatch env l).1 = l.length ∧
    finalMark (processBatch env l).1 = lastModified l := by
  induction l with
  | nil => exact ⟨rfl, rfl, rfl⟩
  | cons r rest ih =>
    obtain ⟨id, c, he⟩ := processOneRecord_allOk env r (hf r) hc hs hm
    obtain ⟨ih2, ihS, ihF⟩ := ih
    refine ⟨?_, ?_, ?_⟩
    · simp [processBatch, he, ih2]
    · simp [processBatch, he, storeCalls, isStoreEv, List.filter_append]
      simpa [storeCalls, isStoreEv] using ihS
    · simp [processBatch, he, finalMark, lastModified, ihF]

/-! ## Lemmas about `validateClassification` -/

theorem checkFields_ok_iff (l : List (String × String)) :
    checkFields l = Except.ok () ↔
      ∀ p ∈ l, (p.2 != "" && (vocabOf p.1).contains p.2) = true := by
  induction l with
  | nil => simp [checkFields]
  | cons p rest ih =>
    obtain ⟨f, v⟩ := p
    by_cases h1 : v = ""
    · subst h1
      simp [checkFields]
    · by_cases h2 : v ∈ vocabOf f
      · simp [checkFields, h1, h2, ih]
      · simp [checkFields, h1, h2]

theorem checkFields_missing (l : List (String × String)) (f : String)
    (h : checkFields l = Except.error (VErr.missingField f)) : (f, "") ∈ l := by
  induction l with
  | nil => simp [checkFields] at h
  | cons p rest ih =>
    obtain ⟨g, v⟩ := p
    by_cases h1 : v == ""
    · rw [checkFields, if_pos h1] at h
      injection h with h
      injection h with hgf
      have hv : v = "" := by simpa using h1
      subst hgf
      subst hv
      exact List.mem_cons_self _ _
    · by_cases h2 : (vocabOf g).contains v
      · rw [checkFields, if_neg h1, if_pos h2] at h
        exact List.mem_cons_of_mem _ (ih h)
      · rw [checkFields, if_neg h1, if_neg h2] at h
        injection h with h; cases h

theorem checkFields_invalid (l : List (String × String)) (f v : String) (vs : List String)
    (h : checkFields l = Except.error (VErr.invalidValue f v vs)) :
    vs = vocabOf f ∧ (f, v) ∈ l ∧ v ≠ "" ∧ (vocabOf f).contains v = false := by
  induction l with
  | nil => simp [checkFields] at h
  | cons p rest ih =>
    obtain ⟨g, w⟩ := p
    by_cases h1 : w == ""
    · rw [checkFields, if_pos h1] at h
      injection h with h; cases h
    · by_cases h2 : (vocabOf g).contains w
      · rw [checkFields, if_neg h1, if_pos h2] at h
        obtain ⟨hv, hm, hne, hc⟩ := ih h
        exact ⟨hv, List.mem_cons_of_mem _ hm, hne, hc⟩
      · rw [checkFields, if_neg h1, if_neg h2] at h
        injection h with h
        injection h with hf hv hvs
        subst hf; subst hv; subst hvs
        refine ⟨rfl, List.mem_cons_self _ _, by simpa using h1, by simpa using h2⟩

/-! ## Lemmas about `parseCSV` and `splitN2` -/

/-- `splitSlash` finds the first `/`: either there is none in the
list, or the list decomposes as `a ++ '/' :: b` with no `/` in `a`. -/
theorem splitSlash_eq (l : List Char) :
    (splitSlash l = none ∧ '/' ∉ l) ∨
    ∃ a b, splitSlash l = some (a, b) ∧ l = a ++ '/' :: b ∧ '/' ∉ a := by
  induction l with
  | nil => exact Or.inl ⟨rfl, by simp⟩
  | cons c rest ih =>
    by_cases hc : c = '/'
    · subst hc
      exact Or.inr ⟨[], rest, by simp [splitSlash], by simp, by simp⟩
    · have hc' : ¬ '/' = c := fun h => hc h.symm
      rcases ih with ⟨h1, h2⟩ | ⟨a, b, h1, h2, h3⟩
      · refine Or.inl ⟨by simp [splitSlash, hc, h1], ?_⟩
        simp [h2, hc']
      · refine Or.inr ⟨c :: a, b, by simp [splitSlash, hc, h1], by simp [h2], ?_⟩
        simp [h3, hc']

/-- A two-column row whose path splits on a `/` produces exactly one
record (at any position of a two-column file). -/
theorem parseCSV_cons_ok (m p eco vid : String) (rest : List (List String))
    (h : splitN2 p = [eco, vid]) :
    parseCSVFrom (some 2) ([m, p] :: rest) =
      (parseCSVFrom (some 2) rest).map (fun recs => ⟨m, eco, vid, p⟩ :: recs) := by
  simp [parseCSVFrom, parseRowInto, h]

/-- A two-column row whose path has no `/` is skipped silently. -/
theorem parseCSV_skip_path (m p : String) (rest : List (List String))
    (h : splitSlash p.data = none) :
    parseCSVFrom (some 2) ([m, p] :: rest) = parseCSVFrom (some 2) rest := by
  simp [parseCSVFrom, parseRowInto, splitN2, h]

/-- Once the reader expects `n` fields, a row with a different count
is `ErrFieldCount`: the whole parse fails, whatever follows. -/
theorem parseCSV_fieldcount_error (n : Nat) (row : List String) (rest : List (List String))
    (h : row.length ≠ n) :
    parseCSVFrom (some n) (row :: rest) = Except.error () := by
  simp [parseCSVFrom, h]

/-- The loop body leaves the result untouched on a row whose field
count is not two. -/
theorem parseRowInto_not2 (row : List String) (h : row.length ≠ 2)
    (res : Except Unit (List CSVRecord)) : parseRowInto row res = res := by
  rcases row with _ | ⟨a, _ | ⟨b, _ | ⟨x, t⟩⟩⟩
  · rfl
  · rfl
  · exact absurd rfl h
  · rfl

/-- A file whose records all have the same field count `n ≠ 2` parses
with no error to the empty record list: every row is skipped. -/
theorem parseCSVFrom_skip_all (n : Nat) (hn : n ≠ 2) :
    ∀ rows : List (List String), (∀ row ∈ rows, row.length = n) →
      parseCSVFrom (some n) rows = Except.ok [] := by
  intro rows
  induction rows with
  | nil => intro _; rfl
  | cons row rest ih =>
    intro h
    have h0 : row.length = n := h row (List.mem_cons_self _ _)
    rw [parseCSVFrom, if_pos h0, ih (fun r hr => h r (List.mem_cons_of_mem _ hr)),
      parseRowInto_not2 row (by rw [h0]; exact hn)]

theorem parseCSV_uniform_not2 (n : Nat) (rows : List (List String)) (hn : n ≠ 2)
    (h : ∀ row ∈ rows, row.length = n) :
    parseCSV rows = Except.ok [] := by
  cases rows with
  | nil => rfl
  | cons row rest =>
    have h0 : row.length = n := h row (List.mem_cons_self _ _)
    show parseRowInto row (parseCSVFrom (some row.length) rest) = Except.ok []
    rw [h0, parseCSVFrom_skip_all n hn rest (fun r hr => h r (List.mem_cons_of_mem _ hr)),
      parseRowInto_not2 row (by rw [h0]; exact hn)]

/-- A two-part `splitN2` result is exactly the split on the first `/`
of the path. -/
theorem splitN2_two (p eco vid : String) (h : splitN2 p = [eco, vid]) :
    ∃ a b, eco = String.mk a ∧ vid = String.mk b ∧ p.data = a ++ '/' :: b ∧ '/' ∉ a := by
  rcases splitSlash_eq p.data with ⟨h1, h2⟩ | ⟨a, b, h1, h2, h3⟩
  · rw [splitN2, h1] at h
    cases h
  · rw [splitN2, h1] at h
    injection h with h4 h5
    injection h5 with h5 h6
    exact ⟨a, b, h4.symm, h5.symm, h2, h3⟩

/-! ## Substring test (for inspecting rendered error text) -/

/-- `pat` starts the list `l`. -/
def startsChars : List Char → List Char → Bool
  | [], _ => true
  | _ :: _, [] => false
  | p :: ps, c :: cs => p = c && startsChars ps cs

/-- `pat` occurs somewhere in `l`. -/
def containsChars (pat : List Char) : List Char → Bool
  | [] => startsChars pat []
  | c :: cs => startsChars pat (c :: cs) || containsChars pat cs

/-- `pat` occurs as a substring of `s`. -/
def containsStr (s pat : String) : Bool := containsChars pat.data s.data

/-! ## Concrete fixtures -/

/-- An all-valid model output. -/
def goodC : Classification :=
  { Verifiability := "verifiable", ExploitabilityContext := "direct-dependency",
    AttackVector := "network-accessible", ImpactScope := "code-execution",
    RemediationComplexity := "simple-update", TemporalClassification := "stable-mature",
    Reasoning := "because" }

def goodResp : StructuredResponse :=
  { Result := goodC, InputTokens := 10, OutputTokens := 20, TotalTokens := 30 }

/-- A fetched detail whose own `modified` differs from the CSV row's. -/
def mkVuln (r : CSVRecord) : Vulnerability :=
  { ID := r.VulnID, Modified := "DETAIL-" ++ r.Modified, Published := "pub", Withdrawn := "" }

/-- Every collaborator succeeds. -/
def envAll : Env :=
  { fetch := fun r => some (mkVuln r),
    chatStructured := fun _ => some goodResp,
    storeOk := fun _ _ => true,
    markOk := fun _ => true,
    ecosystem := "", apiURL := "https://api.osv.dev/v1", processedAt := "2024-01-03T00:00:00Z",
    elapsedMs := 5 }

def rB : CSVRecord := ⟨"b", "npm", "v1", "npm/v1"⟩
def rA : CSVRecord := ⟨"a", "npm", "v2", "npm/v2"⟩
def rE : CSVRecord := ⟨"", "npm", "v0", "npm/v0"⟩

/-- A model output with an out-of-vocabulary `verifiability`. -/
def respBad : StructuredResponse :=
  { Result := { goodC with Verifiability := "bogus" },
    InputTokens := 1, OutputTokens := 1, TotalTokens := 2 }

/-- Classification of the first record fails validation; everything
else succeeds. -/
def envC1 : Env :=
  { envAll with chatStructured := fun v => if v.ID = "v1" then some respBad else some goodResp }

/-- Every detail fetch fails. -/
def envFetchFail : Env := { envAll with fetch := fun _ => none }

/-- Every watermark write fails. -/
def envMarkFail : Env := { envAll with markOk := fun _ => false }

/-- A classification with all fields valid except an empty
`impact_scope`. -/
def cMissingScope : Classification := { goodC with ImpactScope := "" }

def metaG : CacheMetadata :=
  { URL := "https://osv.dev/modified.csv", ETag := "", LastModified := "", CachedAt := 0, TTL := 1 }

def rowsG : List (List String) := [["t1", "npm/v1"]]

def recsG : List CSVRecord := [⟨"t1", "npm", "v1", "npm/v1"⟩]

/-- A fully valid cache entry cached at time 0. -/
def fsGood : CacheFS :=
  { cacheFileExists := true, metaFileExists := true,
    metaRead := some (some metaG), cacheOpen := some rowsG }

/-- No cached payload file. -/
def fsNone : CacheFS :=
  { cacheFileExists := false, metaFileExists := false, metaRead := none, cacheOpen := none }

/-- A network environment whose download succeeds but whose cache
rename fails. -/
def netBadRename : NetEnv :=
  { mkdirOk := true, download := Except.ok rowsG, renameOk := false, metaWriteOk := true }

/-- A network environment that would fail if contacted. -/
def netDead : NetEnv :=
  { mkdirOk := true, download := Except.error (), renameOk := true, metaWriteOk := true }

/-! ## Claim C1 -/

/-- C1, counterexample: the claim says a `ValidationError` during a
record's classification is logged, only that record is skipped, and
the batch run continues.  In fact the error returned by the
per-record function aborts the whole run: with two records where the
first one's model output fails validation, the run stops with an
error after the first record and the second is never fetched, never
classified and never stored. -/
theorem C1_counterexample :
    Classify envC1 { mkVuln rB with Modified := rB.Modified } =
      Except.error (ClassifyErr.validationErr (VErr.invalidValue "verifiability" "bogus"
        ["verifiable", "non-verifiable", "partially-verifiable"])) ∧
    ProcessVulnerabilities envC1 "" 10 [rB, rA] = ([Ev.classifyFail "v1"], false) := by
  constructor
  · decide
  · decide

/-- C1, amended: a single record's transport error during detail
fetch is logged and only that record is skipped, the batch continuing
with the rest; but a classifier failure (model error or validation
error) returned through the per-record function aborts the entire
run. -/
theorem C1_amended (env : Env) (r : CSVRecord) (ys : List CSVRecord) :
    (env.fetch r = none →
      processBatch env (r :: ys) =
        (Ev.fetchFail r.VulnID :: (processBatch env ys).1, (processBatch env ys).2)) ∧
    (∀ v e, env.fetch r = some v →
      Classify env { v with Modified := r.Modified } = Except.error e →
      processBatch env (r :: ys) = ([Ev.classifyFail v.ID], false)) := by
  constructor
  · intro h
    simp [processBatch, processOneRecord, h]
  · intro v e hv he
    simp [processBatch, processOneRecord, processVulnerability, hv, he]

/-- Witness for C1_amended at concrete inputs: a fetch failure leaves
the run going (the second record is still processed and stored), and
a validation failure aborts it. -/
theorem C1_amended_witness :
    processBatch envFetchFail [rB, rA] =
      (Ev.fetchFail "v1" :: (processBatch envFetchFail [rA]).1,
        (processBatch envFetchFail [rA]).2) ∧
    processBatch envC1 [rB, rA] = ([Ev.classifyFail "v1"], false) :=
  ⟨(C1_amended envFetchFail rB [rA]).1 rfl,
   (C1_amended envC1 rB [rA]).2 (mkVuln rB)
     (ClassifyErr.validationErr (VErr.invalidValue "verifiability" "bogus"
       ["verifiable", "non-verifiable", "partially-verifiable"])) rfl (by decide)⟩

/-! ## Claim C2 -/

/-- C2, counterexample: the claim says a row whose path has two or
more `/` split points, or a part that is empty, is silently skipped.
In fact `SplitN(path, "/", 2)` returns fewer than two parts only when
the path has no `/` at all: `"a/b/c"` parses to a record with group
`"a"` and id `"b/c"`, and `"/x"` parses to a record with the empty
group, neither being skipped.  And the column-count tolerance is not
a silent skip either: with the reader's default `FieldsPerRecord`,
a three-column row in a two-column file is `ErrFieldCount`, which
aborts the whole parse with an error, destroying the adjacent rows'
records. -/
theorem C2_counterexample :
    parseCSV [["t1", "a/b/c"], ["t2", "/x"]] =
      Except.ok [⟨"t1", "a", "b/c", "a/b/c"⟩, ⟨"t2", "", "x", "/x"⟩] ∧
    parseCSV [["t1", "npm/v1"], ["t0", "x", "y"], ["t2", "npm/v2"]] = Except.error () := by
  refine ⟨by decide, by decide⟩

/-- C2, amended: in a two-column file, a row whose path contains at
least one `/` yields exactly one record whose group and id are the
parts before and after the first `/` (either possibly empty, and the
id possibly containing further `/`), and a row whose path contains no
`/` is skipped silently with no error and no effect on adjacent rows;
but a row whose column count differs from the first row's is a fatal
parse error (`ErrFieldCount` under the reader's default field-count
consistency check), not a silent skip, so rows of a column count
other than two are tolerated only as a uniformly-sized file, which
parses with no error to the empty record list. -/
theorem C2_amended :
    (∀ m p eco vid rest, splitN2 p = [eco, vid] →
      parseCSVFrom (some 2) ([m, p] :: rest) =
        (parseCSVFrom (some 2) rest).map (fun recs => ⟨m, eco, vid, p⟩ :: recs)) ∧
    (∀ p eco vid, splitN2 p = [eco, vid] →
      ∃ a b, eco = String.mk a ∧ vid = String.mk b ∧ p.data = a ++ '/' :: b ∧ '/' ∉ a) ∧
    (∀ m p rest, splitSlash p.data = none →
      parseCSVFrom (some 2) ([m, p] :: rest) = parseCSVFrom (some 2) rest) ∧
    (∀ n row rest, row.length ≠ n →
      parseCSVFrom (some n) (row :: rest) = Except.error ()) ∧
    (∀ n rows, n ≠ 2 → (∀ row ∈ rows, row.length = n) →
      parseCSV rows = Except.ok []) :=
  ⟨parseCSV_cons_ok, splitN2_two, parseCSV_skip_path, parseCSV_fieldcount_error,
   fun n rows hn h => parseCSV_uniform_not2 n rows hn h⟩

/-- Witness for C2_amended at concrete inputs. -/
theorem C2_amended_witness :
    parseCSVFrom (some 2) [["t1", "npm/v1"]] =
      (parseCSVFrom (some 2) ([] : List (List String))).map
        (fun recs => ⟨"t1", "npm", "v1", "npm/v1"⟩ :: recs) ∧
    parseCSVFrom (some 2) [["t0", "noslash"], ["t1", "npm/v1"]] =
      parseCSVFrom (some 2) [["t1", "npm/v1"]] ∧
    parseCSVFrom (some 2) [["t0", "x", "y"], ["t1", "npm/v1"]] = Except.error () ∧
    parseCSV [["a"], ["b"], ["c"]] = Except.ok [] :=
  ⟨C2_amended.1 "t1" "npm/v1" "npm" "v1" [] (by decide),
   C2_amended.2.2.1 "t0" "noslash" [["t1", "npm/v1"]] (by decide),
   C2_amended.2.2.2.1 2 ["t0", "x", "y"] [["t1", "npm/v1"]] (by decide),
   C2_amended.2.2.2.2 1 [["a"], ["b"], ["c"]] (by decide) (by decide)⟩

/-- The `OSVModified` stamps of the classifications whose store
succeeded, in trace order. -/
def storedModifieds (t : List Ev) : List String :=
  t.filterMap (fun ev =>
    match ev with
    | Ev.storeOk _ c => some c.OSVModified
    | _ => none)

/-! ## Claim C3 -/

/-- C3, counterexample: the claim says that in an all-success run the
watermark ends at the maximum `modified` among the stored records.
With two surviving records arriving in the order `"b"`, `"a"` and
every fetch, classification and store succeeding, both records are
stored (exactly `M = 2` store calls, as claimed) but the final
watermark is `"a"` — the last record processed — although the stored
record `rB` has the strictly larger timestamp `"b"`. -/
theorem C3_counterexample :
    (ProcessVulnerabilities envAll "" 10 [rB, rA]).2 = true ∧
    storeCalls (ProcessVulnerabilities envAll "" 10 [rB, rA]).1 = 2 ∧
    storedModifieds (ProcessVulnerabilities envAll "" 10 [rB, rA]).1 = ["b", "a"] ∧
    finalMark (ProcessVulnerabilities envAll "" 10 [rB, rA]).1 = some "a" ∧
    strLe "b" "a" = false := by
  refine ⟨by decide, by decide, by decide, by decide, by decide⟩

/-- C3, amended: with batch size `N` and `M` surviving records, when
every detail fetch, classification and store succeeds the store
receives exactly `M` `StoreClassification` calls and the watermark
after the run equals the `modified` of the **last** surviving record
processed (which is the maximum only when the feed is ordered
ascending by `modified`). -/
theorem C3_amended (env : Env)
    (hf : ∀ r, ∃ v, env.fetch r = some v)
    (hc : ∀ v, ∃ resp, env.chatStructured v = some resp ∧
      validateClassification resp.Result = Except.ok ())
    (hs : ∀ id c, env.storeOk id c = true)
    (hm : ∀ ts, env.markOk ts = true)
    (lt : String) (bs : Nat) (records : List CSVRecord) :
    (ProcessVulnerabilities env lt bs records).2 = true ∧
    storeCalls (ProcessVulnerabilities env lt bs records).1 =
      (records.filter (keep env.ecosystem lt)).length ∧
    finalMark (ProcessVulnerabilities env lt bs records).1 =
      lastModified (records.filter (keep env.ecosystem lt)) := by
  have h := processBatch_allOk env hf hc hs hm (records.filter (keep env.ecosystem lt))
  have he : ProcessVulnerabilities env lt bs records =
      processBatch env (records.filter (keep env.ecosystem lt)) := by
    simpa [ProcessVulnerabilities] using processLoop_eq env lt bs records []
  rw [he]
  exact h

/-- Witness for C3_amended at concrete inputs (batch size 1, records
out of timestamp order). -/
theorem C3_amended_witness :
    (ProcessVulnerabilities envAll "" 1 [rB, rA]).2 = true ∧
    storeCalls (ProcessVulnerabilities envAll "" 1 [rB, rA]).1 =
      ([rB, rA].filter (keep envAll.ecosystem "")).length ∧
    finalMark (ProcessVulnerabilities envAll "" 1 [rB, rA]).1 =
      lastModified ([rB, rA].filter (keep envAll.ecosystem "")) :=
  C3_amended envAll (fun r => ⟨mkVuln r, rfl⟩) (fun _ => ⟨goodResp, rfl, by decide⟩)
    (fun _ _ => rfl) (fun _ => rfl) "" 1 [rB, rA]

/-! ## Claim C4 -/

/-- C4, counterexample: the claim concludes that re-running with the
watermark set to the maximum `modified` of an unchanged feed
classifies zero records.  A parsed row may carry the empty timestamp
(e.g. the index line `,npm/v0`); for a feed whose records all have
`modified = ""` the maximum — and so the stored watermark after a
full run — is `""`, which the resume logic treats as the from-scratch
sentinel: the second run classifies the record again (one store call,
not zero). -/
theorem C4_counterexample :
    parseCSV [["", "npm/v0"]] = Except.ok [rE] ∧
    finalMark (ProcessVulnerabilities envAll "" 10 [rE]).1 = some "" ∧
    strLe rE.Modified "" = true ∧
    storeCalls (ProcessVulnerabilities envAll "" 10 [rE]).1 = 1 := by
  refine ⟨by decide, by decide, by decide, by decide⟩

/-- C4, amended: the loop processes exactly the records not skipped
by the filter — a record is skipped iff `lastTimestamp` is non-empty
and its `modified` is `<=` `lastTimestamp` in byte-lexicographic
string order, or an ecosystem filter is configured and differs — and
consequently, when the watermark is **non-empty** and every record's
`modified` is `<=` it, a re-run processes zero records and stores
nothing. -/
theorem C4_amended (env : Env) (lt : String) (bs : Nat) (records : List CSVRecord) :
    (ProcessVulnerabilities env lt bs records =
      processBatch env (records.filter (keep env.ecosystem lt))) ∧
    (lt ≠ "" → (∀ r ∈ records, strLe r.Modified lt = true) →
      ProcessVulnerabilities env lt bs records = ([], true)) := by
  have he : ProcessVulnerabilities env lt bs records =
      processBatch env (records.filter (keep env.ecosystem lt)) := by
    simpa [ProcessVulnerabilities] using processLoop_eq env lt bs records []
  refine ⟨he, fun hlt hall => ?_⟩
  have hfe : records.filter (keep env.ecosystem lt) = [] := by
    rw [List.filter_eq_nil_iff]
    intro r hr
    simp [keep, hlt, hall r hr]
  rw [he, hfe]
  rfl

/-- Witness for C4_amended: with watermark `"b"` covering the only
record, the run does nothing. -/
theorem C4_amended_witness :
    ProcessVulnerabilities envAll "b" 10 [rA] = ([], true) :=
  (C4_amended envAll "b" 10 [rA]).2 (by decide) (by decide)

/-! ## Claim C5 -/

/-- C5, confirmed: in every run trace, each watermark write call
(successful or failed) immediately follows a successful
classification store — the watermark is never advanced when
classification or storage fails — and if a watermark write fails the
run returns an error. -/
theorem C5_watermark_after_store (env : Env) (lt : String) (bs : Nat)
    (records : List CSVRecord) :
    marksAfterStores (ProcessVulnerabilities env lt bs records).1 = true ∧
    ((ProcessVulnerabilities env lt bs records).1.any isMarkFail = true →
      (ProcessVulnerabilities env lt bs records).2 = false) := by
  have he : ProcessVulnerabilities env lt bs records =
      processBatch env (records.filter (keep env.ecosystem lt)) := by
    simpa [ProcessVulnerabilities] using processLoop_eq env lt bs records []
  rw [he]
  exact ⟨processBatch_marksAfterStores env _, processBatch_markFail_aborts env _⟩

/-- Witness for C5 at a concrete input where the watermark write
fails: the ordering invariant holds and the run aborts. -/
theorem C5_witness :
    marksAfterStores (ProcessVulnerabilities envMarkFail "" 10 [rB]).1 = true ∧
    (ProcessVulnerabilities envMarkFail "" 10 [rB]).2 = false :=
  ⟨(C5_watermark_after_store envMarkFail "" 10 [rB]).1,
   (C5_watermark_after_store envMarkFail "" 10 [rB]).2 (by decide)⟩

/-! ## Claim C6 -/

/-- C6, counterexample: the claim says the rejection error names the
offending field **and its allowed value set**.  For a missing
(empty) field the Go error is `"missing required field: %s"`, which
carries the field name only: with an otherwise-valid classification
whose `impact_scope` is empty, the rendered error text contains none
of the five allowed `impact_scope` values. -/
theorem C6_counterexample :
    validateClassification cMissingScope =
      Except.error (VErr.missingField "impact_scope") ∧
    renderVErr (VErr.missingField "impact_scope") =
      "missing required field: impact_scope" ∧
    containsStr (renderVErr (VErr.missingField "impact_scope")) "data-confidentiality" = false ∧
    containsStr (renderVErr (VErr.missingField "impact_scope")) "data-integrity" = false ∧
    containsStr (renderVErr (VErr.missingField "impact_scope")) "system-availability" = false ∧
    containsStr (renderVErr (VErr.missingField "impact_scope")) "code-execution" = false ∧
    containsStr (renderVErr (VErr.missingField "impact_scope")) "privilege-escalation" = false := by
  refine ⟨by decide, by decide, by decide, by decide, by decide, by decide, by decide⟩

/-- C6, amended: validation rejects a classification iff at least one
of the six enumerated fields is empty or outside its exact
case-sensitive vocabulary; an out-of-vocabulary rejection names the
offending field, the value and the allowed set, while a missing-field
rejection names only the field; and a rejected classification is
never passed to the store (the per-record step emits only the
classification-failure event). -/
theorem C6_amended :
    (∀ c, validateClassification c = Except.ok () ↔
      ∀ p ∈ fieldsOf c, (p.2 != "" && (vocabOf p.1).contains p.2) = true) ∧
    (∀ c f v vs, validateClassification c = Except.error (VErr.invalidValue f v vs) →
      vs = vocabOf f ∧ (f, v) ∈ fieldsOf c ∧ v ≠ "" ∧ (vocabOf f).contains v = false) ∧
    (∀ c f, validateClassification c = Except.error (VErr.missingField f) →
      (f, "") ∈ fieldsOf c) ∧
    (∀ env vuln resp e, env.chatStructured vuln = some resp →
      validateClassification resp.Result = Except.error e →
      processVulnerability env vuln = ([Ev.classifyFail vuln.ID], false)) := by
  refine ⟨fun c => checkFields_ok_iff (fieldsOf c),
    fun c f v vs h => checkFields_invalid (fieldsOf c) f v vs h,
    fun c f h => checkFields_missing (fieldsOf c) f h,
    fun env vuln resp e hresp hval => ?_⟩
  simp [processVulnerability, Classify, hresp, hval]

/-- Witness for C6_amended at concrete inputs: the all-valid
classification passes, the bad response is rejected and never
stored. -/
theorem C6_amended_witness :
    validateClassification goodC = Except.ok () ∧
    processVulnerability envC1 (mkVuln rB) = ([Ev.classifyFail "v1"], false) :=
  ⟨(C6_amended.1 goodC).mpr (by decide),
   C6_amended.2.2.2 envC1 (mkVuln rB) respBad
     (VErr.invalidValue "verifiability" "bogus"
       ["verifiable", "non-verifiable", "partially-verifiable"]) (by decide) (by decide)⟩

/-! ## Claim C7 -/

/-- C7, counterexample: the claim (like the spec invariant) requires
the current time to be strictly **before** `cachedAt + ttlHours` for
a cache hit.  The code tests `time.Now().After(expireTime)`, so at
exactly the expiry instant (`now = cachedAt + ttl`, here `1 = 0 + 1`)
the entry is still served from cache with no network call, although
the spec-side validity predicate calls it expired. -/
theorem C7_counterexample :
    downloadCSV fsGood netDead 1 1 = (Except.ok recsG, true) ∧
    cacheValidSpec fsGood 1 1 = false := by
  refine ⟨by decide, by decide⟩

/-- C7, amended: `downloadCSV` returns cached records with no network
call iff the payload file and metadata sidecar both exist, the
metadata reads and parses, the TTL check passes — the current time is
**not after** `cachedAt + ttlHours` when `ttlHours > 0`, `0` meaning
never expires — and the cached payload opens and parses; any failure
of these checks falls through to a fresh download and is never
surfaced as an error. -/
theorem loadFromCache_some_iff (fs : CacheFS) (cacheTTL now : Int)
    (records : List CSVRecord) :
    loadFromCache fs cacheTTL now = some records ↔
      ∃ meta rows, fs.cacheFileExists = true ∧ fs.metaFileExists = true ∧
        fs.metaRead = some (some meta) ∧
        (cacheTTL > 0 → now ≤ meta.CachedAt + cacheTTL) ∧
        fs.cacheOpen = some rows ∧ parseCSV rows = Except.ok records := by
  obtain ⟨ce, me, mr, co⟩ := fs
  cases ce
  · simp [loadFromCache]
  · cases me
    · simp [loadFromCache]
    · rcases mr with _ | ⟨_ | meta⟩
      · simp [loadFromCache]
      · simp [loadFromCache]
      · rcases co with _ | rows
        · simp [loadFromCache]
        · by_cases hgt : cacheTTL > 0
          · by_cases hlt : meta.CachedAt + cacheTTL < now
            · simp [loadFromCache, hgt, hlt, not_le.mpr hlt]
            · cases hp : parseCSV rows with
              | error e => simp [loadFromCache, hgt, hlt, hp]
              | ok recs => simp [loadFromCache, hgt, hlt, hp, not_lt.mp hlt, eq_comm]
          · cases hp : parseCSV rows with
            | error e => simp [loadFromCache, hgt, hp]
            | ok recs => simp [loadFromCache, hgt, hp, eq_comm]

theorem C7_amended (fs : CacheFS) (net : NetEnv) (cacheTTL now : Int) :
    ((downloadCSV fs net cacheTTL now).2 = true ↔
      ∃ meta rows records, fs.cacheFileExists = true ∧ fs.metaFileExists = true ∧
        fs.metaRead = some (some meta) ∧
        (cacheTTL > 0 → now ≤ meta.CachedAt + cacheTTL) ∧
        fs.cacheOpen = some rows ∧ parseCSV rows = Except.ok records) ∧
    ((downloadCSV fs net cacheTTL now).2 = false →
      downloadCSV fs net cacheTTL now = ((downloadAndCache net).1, false)) := by
  refine ⟨?_, ?_⟩
  · cases hload : loadFromCache fs cacheTTL now with
    | none =>
      simp only [downloadCSV, hload]
      constructor
      · intro h; simp at h
      · rintro ⟨meta, rows, records, h1, h2, h3, h4, h5, h6⟩
        have := (loadFromCache_some_iff fs cacheTTL now records).mpr
          ⟨meta, rows, h1, h2, h3, h4, h5, h6⟩
        rw [this] at hload
        cases hload
    | some records =>
      simp only [downloadCSV, hload]
      constructor
      · intro _
        obtain ⟨meta, rows, h1, h2, h3, h4, h5, h6⟩ :=
          (loadFromCache_some_iff fs cacheTTL now records).mp hload
        exact ⟨meta, rows, records, h1, h2, h3, h4, h5, h6⟩
      · intro h; trivial
  · intro h
    cases hload : loadFromCache fs cacheTTL now with
    | none => simp [downloadCSV, hload]
    | some records =>
      rw [downloadCSV] at h
      rw [hload] at h
      simp at h

/-- Witness for C7_amended at concrete inputs: a valid entry within
TTL is served from cache, a missing entry falls through to the
download path. -/
theorem C7_amended_witness :
    (downloadCSV fsGood netDead 1 0).2 = true ∧
    downloadCSV fsNone netDead 1 0 = ((downloadAndCache netDead).1, false) :=
  ⟨(C7_amended fsGood netDead 1 0).1.mpr
      ⟨metaG, rowsG, recsG, rfl, rfl, rfl, fun _ => by decide, rfl, by decide⟩,
   (C7_amended fsNone netDead 1 0).2 (by decide)⟩

/-! ## Claim C8 -/

/-- C8, confirmed: after a successful download and parse, a failure
to rename the temp file into the cache path or to write the metadata
sidecar does not fail the fetch — `downloadAndCache` still returns
the parsed records with no error, the cache-save failure being
observable only as the logged warning. -/
theorem C8_cache_save_failure_not_fatal (net : NetEnv)
    (rows : List (List String)) (records : List CSVRecord)
    (hmk : net.mkdirOk = true)
    (hdl : net.download = Except.ok rows)
    (hp : parseCSV rows = Except.ok records) :
    (downloadAndCache net).1 = Except.ok records ∧
    ((net.renameOk = false ∨ net.metaWriteOk = false) →
      downloadAndCache net = (Except.ok records, false)) := by
  constructor
  · cases hsv : saveToCache net with
    | error e => simp [downloadAndCache, hmk, hdl, hp, hsv]
    | ok u => simp [downloadAndCache, hmk, hdl, hp, hsv]
  · intro hbad
    have hsv : saveToCache net = Except.error () := by
      rcases hbad with hb | hb <;> simp [saveToCache, hb]
    simp [downloadAndCache, hmk, hdl, hp, hsv]

/-- Witness for C8 at a concrete input whose rename fails: the fetch
still succeeds with the parsed records. -/
theorem C8_witness :
    downloadAndCache netBadRename = (Except.ok recsG, false) :=
  (C8_cache_save_failure_not_fatal netBadRename rowsG recsG rfl rfl (by decide)).2
    (Or.inl rfl)

/-! ## Claim C9 -/

/-- C9, confirmed: for every batch record whose detail fetch
succeeds, `processBatch` invokes the per-record function on the
fetched detail with its `Modified` overwritten by the CSV row's
timestamp; consequently every stored classification's `OSVModified`
and every watermark write in a batch trace carry the `Modified` of
one of the batch's CSV rows, never the fetched detail's own value. -/
theorem C9_feed_timestamp_wins (env : Env) (batch : List CSVRecord) :
    (∀ r v, env.fetch r = some v →
      processOneRecord env r = processVulnerability env { v with Modified := r.Modified }) ∧
    (∀ ev ∈ (processBatch env batch).1, evFeedStamped batch ev) := by
  refine ⟨fun r v h => ?_, processBatch_feedStamped env batch⟩
  simp [processOneRecord, h]

/-- Witness for C9 at a concrete input: the fetched detail reports
`Modified = "DETAIL-b"`, yet the watermark write carries the CSV
row's `"b"`. -/
theorem C9_witness :
    (mkVuln rB).Modified = "DETAIL-b" ∧
    processOneRecord envAll rB =
      processVulnerability envAll { mkVuln rB with Modified := rB.Modified } ∧
    evFeedStamped [rB] (Ev.markOk "b") :=
  ⟨rfl, (C9_feed_timestamp_wins envAll [rB]).1 rB (mkVuln rB) rfl,
   (C9_feed_timestamp_wins envAll [rB]).2 (Ev.markOk "b") (by decide)⟩

/-! ## Claim C10 -/

/-- C10, confirmed: `validateClassification` never inspects the
`Reasoning` field — its verdict is unchanged under any rewrite of
`Reasoning` — so a classification whose six enumerated fields are
valid passes validation even with an empty `Reasoning`, and a
validated classification always reaches the store call. -/
theorem C10_reasoning_not_validated :
    (∀ c s, validateClassification { c with Reasoning := s } = validateClassification c) ∧
    (∀ c, (∀ p ∈ fieldsOf c, (p.2 != "" && (vocabOf p.1).contains p.2) = true) →
      validateClassification { c with Reasoning := "" } = Except.ok ()) ∧
    (∀ env vuln resp, env.chatStructured vuln = some resp →
      validateClassification resp.Result = Except.ok () →
      storeCalls (processVulnerability env vuln).1 = 1) := by
  refine ⟨fun c s => rfl, fun c h => ?_, fun env vuln resp hresp hval => ?_⟩
  · exact (checkFields_ok_iff (fieldsOf c)).mpr h
  · have hcl : ∃ c, Classify env vuln = Except.ok c := by
      simp only [Classify, hresp, hval]
      exact ⟨_, rfl⟩
    obtain ⟨c, hcl⟩ := hcl
    by_cases hs : env.storeOk vuln.ID c
    · by_cases hm : env.markOk vuln.Modified
      · simp [processVulnerability, hcl, hs, hm, storeCalls, isStoreEv]
      · simp [processVulnerability, hcl, hs, hm, storeCalls, isStoreEv]
    · simp [processVulnerability, hcl, hs, storeCalls, isStoreEv]

/-- Witness for C10 at concrete inputs: the valid classification with
empty reasoning passes and the per-record step reaches the store. -/
theorem C10_witness :
    validateClassification { goodC with Reasoning := "" } = Except.ok () ∧
    storeCalls (processVulnerability envAll (mkVuln rB)).1 = 1 :=
  ⟨C10_reasoning_not_validated.2.1 goodC (by decide),
   C10_reasoning_not_validated.2.2 envAll (mkVuln rB) goodResp rfl (by decide)⟩

end Wraith
